import Mathlib

/-!
Shallow embedding of the Changeling backend's room/game state layer
(`src/game_internals.py`, `src/server.py`).

The backing Redis store is modelled per room as a record of exactly the
fields the code ever writes: the scalar hash fields of `room:{id}`, the two
lists `room:{id}:users` and `room:{id}:changelings`, the auxiliary vote hash
`room:{id}:user_votes` (an insertion-ordered association list, the order a
small Redis hash preserves and `hgetall` returns), and the per-user
`player_role` fields of the `user:{id}` hashes, collected into one role map.

Because the client is constructed with `decode_responses=True`, every value
read back from the store is a string; fields that are only ever written with
well-typed values are modelled at their logical type, while `turn_state`
(which one code path assigns a PlayerState tag instead of a GameState tag)
is kept as the raw stored string, re-parsed on read exactly as
`GameState(int(s))` does.  A hash field that was never written reads back as
Python `None`; the Python dynamic-typing outcomes of touching such a value
(`int > None` raises TypeError, `int(None)` raises TypeError, `int == None`
is `False`) are modelled explicitly.
-/

/-- GameState enum of game_internals.py (values 0,1,2,4,5,6). -/
inductive GameState
  | LOBBY
  | NORMAL
  | CAMPFIRE_OUT
  | BURN_CAMPER
  | CAMPER_VICTORY
  | CHANGELING_VICTORY
deriving DecidableEq, Repr

/-- The integer tag of a GameState, as stored in Redis. -/
def GameState.value : GameState → Nat
  | .LOBBY => 0
  | .NORMAL => 1
  | .CAMPFIRE_OUT => 2
  | .BURN_CAMPER => 4
  | .CAMPER_VICTORY => 5
  | .CHANGELING_VICTORY => 6

/-- GameState(n): the enum member with tag n, if any. -/
def gameStateOfNat : Nat → Option GameState
  | 0 => some .LOBBY
  | 1 => some .NORMAL
  | 2 => some .CAMPFIRE_OUT
  | 4 => some .BURN_CAMPER
  | 5 => some .CAMPER_VICTORY
  | 6 => some .CHANGELING_VICTORY
  | _ => none

/-- PlayerState enum of game_internals.py (string-valued). -/
inductive PlayerState
  | UNASSIGNED
  | CHANGELING
  | CAMPER
  | DEAD
deriving DecidableEq, Repr

/-- The string tag of a PlayerState, as stored in Redis. -/
def PlayerState.value : PlayerState → String
  | .UNASSIGNED => "unassigned"
  | .CHANGELING => "changeling"
  | .CAMPER => "camper"
  | .DEAD => "dead"

/-- Exceptions the embedded Python code can raise. -/
inductive PyErr
  | typeError
  | valueError
deriving DecidableEq, Repr

/-- The store-backed state of one Room: the writable fields of the `room:{id}`
hash, its two lists, the `room:{id}:user_votes` hash, and the `player_role`
fields of the user hashes (one role per user id). -/
structure RoomState where
  turn : Nat
  real_turn : Nat
  turn_owner_index : Nat
  /-- Raw stored tag: `__setattr__` stores an Enum as its `.value`, so a
  GameState lands here as a decimal digit string and (in the dead winner
  branch of `next_turn`) a PlayerState as its word tag. -/
  turn_state : String
  /-- `users_voted` field of the room hash: absent (`none`) until the first
  `hincrby` from `cast_vote` creates it. -/
  users_voted : Option Nat
  users : List String
  changelings : List String
  /-- `room:{id}:user_votes` hash in field-insertion order; `hincrby` stores
  integer tallies (read back as decimal strings under decode_responses). -/
  user_votes : List (String × Nat)
  /-- `player_role` of each user id (always written as a PlayerState tag). -/
  roles : String → PlayerState

/-- `hset` on a hash modelled as an insertion-ordered association list:
an existing field is updated in place, a new field is appended. -/
def hset (h : List (String × Nat)) (k : String) (v : Nat) : List (String × Nat) :=
  if h.any (fun kv => kv.1 == k) then
    h.map (fun kv => if kv.1 == k then (kv.1, v) else kv)
  else h ++ [(k, v)]

/-- `hmset` (ConnectionManager.create_obj): each field of the mapping is set
in mapping order; fields of the hash not in the mapping are left untouched. -/
def hmset (h : List (String × Nat)) (mapping : List (String × Nat)) : List (String × Nat) :=
  mapping.foldl (fun acc kv => hset acc kv.1 kv.2) h

/-- `hincrby key field 1`: increments an existing field, creates an absent
field with value 1. -/
def hincrby (h : List (String × Nat)) (k : String) : List (String × Nat) :=
  if h.any (fun kv => kv.1 == k) then
    h.map (fun kv => if kv.1 == k then (kv.1, kv.2 + 1) else kv)
  else h ++ [(k, 1)]

/-- The tally a reader of the vote hash sees for id `k` (0 when absent). -/
def lookupTally (h : List (String × Nat)) (k : String) : Nat :=
  ((h.find? (fun kv => kv.1 == k)).map (fun kv => kv.2)).getD 0

/-- Python `int > None` / `int > int`: comparing an int against an absent
(`None`) hash field raises TypeError in Python 3. -/
def intGtOpt (a : Int) : Option Int → Except PyErr Bool
  | some b => .ok (decide (a > b))
  | none => .error .typeError

/-- Python `int == None` is `False` (no exception). -/
def intEqOpt (a : Int) : Option Int → Bool
  | some b => a == b
  | none => false

/-- Reading `self.number_of_living` on a Room: `number_of_living` is not a
field any code path ever writes to the `room:{id}` hash, so
`Room.__getattr__` falls through to an `hget` of an absent field, which
returns `None`. -/
def Room.number_of_living_attr (_s : RoomState) : Option Int := none

/-- Reading `self.turn_state`: the special attribute converts the stored
string with `GameState(int(s))`; `int` of a non-numeric string raises
ValueError, as does `GameState` of an integer with no enum member. -/
def Room.read_turn_state (s : RoomState) : Except PyErr GameState :=
  match s.turn_state.toNat? with
  | none => .error .valueError
  | some n =>
    match gameStateOfNat n with
    | none => .error .valueError
    | some g => .ok g

/-- Room.get_winner: compares `len(self.changelings)` against
`self.number_of_living` — an absent hash field, hence `int > None`. -/
def Room.get_winner (s : RoomState) : Except PyErr (Option PlayerState) := do
  let changeling_count : Int := s.changelings.length
  let gt ← intGtOpt changeling_count (Room.number_of_living_attr s)
  if gt then
    return some PlayerState.CHANGELING
  else if s.turn > 40 ∨ s.changelings.length = 0 then
    return some PlayerState.CAMPER
  else
    return none

/-- Room.set_up_voting: `create_obj` hmsets `{user_id: 0 for user in users}`
onto the `user_votes` hash (no delete of the key first, no touch of
`users_voted`). -/
def Room.set_up_voting (s : RoomState) : RoomState :=
  { s with user_votes := hmset s.user_votes (s.users.map (fun u => (u, 0))) }

/-- Room.cast_vote: `hincrby` the target's tally and the room's
`users_voted` field, unconditionally (no record of who voted). -/
def Room.cast_vote (s : RoomState) (user_id : String) : RoomState :=
  { s with user_votes := hincrby s.user_votes user_id,
           users_voted := some (s.users_voted.getD 0 + 1) }

/-- Room.has_all_voted: computes the living count into a local variable but
compares `self.users_voted` (an `int(...)` special attribute, TypeError when
the field is absent) against `self.number_of_living`, the absent hash field
(`None`), with Python `==`. -/
def Room.has_all_voted (s : RoomState) : Except PyErr Bool := do
  let number_of_living := s.users.countP (fun u => s.roles u != PlayerState.DEAD)
  let uv ←
    match s.users_voted with
    | some n => Except.ok (n : Int)
    | none => Except.error PyErr.typeError
  let _ := number_of_living  -- the local count is never read again
  return intEqOpt uv (Room.number_of_living_attr s)

/-- Room.add_player: rpush onto `users`. -/
def Room.add_player (s : RoomState) (user : String) : RoomState :=
  { s with users := s.users ++ [user] }

/-- Room.add_changeling: rpush onto `changelings` (no membership check
against `users`). -/
def Room.add_changeling (s : RoomState) (user : String) : RoomState :=
  { s with changelings := s.changelings ++ [user] }

/-- Room.burn_player: set the player's role to DEAD, then `lrem` them from
`changelings` when present (lrem with count 0 removes every occurrence). -/
def Room.burn_player (s : RoomState) (player : String) : RoomState :=
  let s1 := { s with roles := fun u => if u = player then PlayerState.DEAD else s.roles u }
  if player ∈ s1.changelings then
    { s1 with changelings := s1.changelings.filter (fun c => c ≠ player) }
  else s1

/-- Room.assign_roles: every user in `users` is set to CAMPER, then
`choice(self.users)` — modelled by the chosen index `i`, in range whenever
`users` is non-empty — is set to CHANGELING and rpushed onto `changelings`.
(The out-of-range branch is unreachable: `random.choice` on a non-empty list
always yields an element.) -/
def Room.assign_roles (s : RoomState) (i : Nat) : RoomState :=
  let campers := fun u => if u ∈ s.users then PlayerState.CAMPER else s.roles u
  match s.users[i]? with
  | none => { s with roles := campers }
  | some chosen =>
    { s with
      roles := fun u => if u = chosen then PlayerState.CHANGELING else campers u,
      changelings := s.changelings ++ [chosen] }

/-- Room.next_turn: increments `real_turn` first, then branches on
`get_winner`; the special-round dice is `choice([BURN_CAMPER, BURN_CAMPER,
BURN_CAMPER])`, a choice over three identical entries, hence deterministic.
Returns the store state as left by the call (mutations before an exception
persist) together with the returned value or the exception raised. -/
def Room.next_turn (s : RoomState) (progress : Bool := false) :
    RoomState × Except PyErr GameState :=
  let s1 := { s with real_turn := s.real_turn + 1 }
  match Room.get_winner s1 with
  | .error e => (s1, .error e)
  | .ok (some winner) =>
    -- `self.turn_state = winner` stores the PlayerState's string tag
    let s2 := { s1 with turn_state := winner.value }
    (s2, Room.read_turn_state s2)  -- `return self.turn_state` re-parses it
  | .ok none =>
    if progress = false ∧ s1.turn ≠ 0 ∧ s1.turn % 5 = 0 then
      let s2 := { s1 with turn_state := toString GameState.BURN_CAMPER.value }
      let s3 :=
        match Room.read_turn_state s2 with
        | .ok GameState.BURN_CAMPER => Room.set_up_voting s2
        | _ => s2
      (s3, Room.read_turn_state s3)
    else
      let s2 := { s1 with
        turn := s1.turn + 1,
        turn_owner_index := s1.turn_owner_index + 1,
        turn_state := toString GameState.NORMAL.value }
      (s2, Room.read_turn_state s2)

/-- Python 3 string `<`: lexicographic comparison of the code-point
sequences (a strict prefix is smaller). -/
def pyStrLtAux : List Char → List Char → Bool
  | [], [] => false
  | [], _ :: _ => true
  | _ :: _, [] => false
  | a :: as, b :: bs =>
    if a.val < b.val then true
    else if b.val < a.val then false
    else pyStrLtAux as bs

/-- Python `str < str` on whole strings. -/
def pyStrLt (a b : String) : Bool := pyStrLtAux a.toList b.toList

/-- One insertion step of a stable descending sort: a later element is
placed after every already-placed element whose key is not smaller. -/
def insertDescBy (key : α → String) (x : α) : List α → List α
  | [] => [x]
  | y :: ys =>
    if pyStrLt (key y) (key x) then x :: y :: ys
    else y :: insertDescBy key x ys

/-- `list.sort(key=key, reverse=True)`: Python's sort is stable, so the
result is in non-increasing key order with equal-key elements kept in their
original relative order; this insertion sort realises exactly that
contract. -/
def pySortDescBy (key : α → String) (l : List α) : List α :=
  l.foldl (fun acc x => insertDescBy key x acc) []

/-- `get_dict(self, 'user_votes')`: `hgetall` under decode_responses returns
the tallies as decimal strings, in field-insertion order. -/
def Room.get_dict (s : RoomState) : List (String × String) :=
  s.user_votes.map (fun kv => (kv.1, Nat.repr kv.2))

/-- Room.tally_votes: sorts the `(id, tally-string)` pairs by the tally
string, descending, and returns the id of `tuples[0]` (IndexError — here
`none` — on an empty vote hash).  The comparison key is the *string* the
store returned, not an integer. -/
def Room.tally_votes (s : RoomState) : Option String :=
  ((pySortDescBy (fun kv => kv.2) (Room.get_dict s)).head?).map (fun kv => kv.1)

/-- One step of a left-to-right champion scan: the incumbent is replaced
only by a strictly larger key. -/
def champStep (key : α → String) (acc : Option α) (x : α) : Option α :=
  match acc with
  | none => some x
  | some c => if pyStrLt (key c) (key x) then some x else some c

/-- The first element of the list attaining the maximal key (strictly later
elements must exceed the incumbent to replace it). -/
def champS (key : α → String) (l : List α) : Option α :=
  l.foldl (champStep key) none

/-- Modelled from the spec's words for C5 ("the player with the strictly
highest tally; ties broken by the first maximal entry encountered"): the
first entry whose integer tally is at least every later tally. -/
def specFirstMax : List (String × Nat) → Option String
  | [] => none
  | kv :: rest =>
    if rest.all (fun kv2 => kv2.2 ≤ kv.2) then some kv.1 else specFirstMax rest

/-- Left-to-right champion scan on the integer tallies (proof-side
reference: the incumbent is replaced only by a strictly larger tally, so
ties keep the earlier entry). -/
def champNats (c : String × Nat) : List (String × Nat) → String × Nat
  | [] => c
  | x :: xs => champNats (if c.2 < x.2 then x else c) xs

/-- app.config of server.py: MAX_USERS_PER_ROOM = 5. -/
def MAX_USERS_PER_ROOM : Nat := 5

/-- The slice of the shared store that `join_game` touches: which user ids
already have a `user:{id}` hash, whether the requested room exists, and that
room's state. -/
structure ServerStore where
  userRecords : List String
  roomExists : Bool
  room : RoomState

/-- Outcome emitted by the join_game handler. -/
inductive JoinOutcome
  | roomNotFound
  | roomFull
  | joined
deriving DecidableEq, Repr

/-- server.py join_game (the session-level `rooms()` guard, which lives in
the transport layer and touches no store state, is outside the store model):
`User(...)` is constructed — creating the `user:{sid}` hash when absent —
*before* the room-existence and capacity checks; only then is the player
appended to the room's `users` list. -/
def join_game (st : ServerStore) (sid : String) : ServerStore × JoinOutcome :=
  let st1 :=
    if sid ∈ st.userRecords then st
    else { st with userRecords := st.userRecords ++ [sid] }
  if st1.roomExists = false then (st1, .roomNotFound)
  else if MAX_USERS_PER_ROOM ≤ st1.room.users.length then (st1, .roomFull)
  else ({ st1 with room := Room.add_player st1.room sid }, .joined)

/-! Concrete store states used to evaluate the code at specific inputs. -/

/-- Room in a NORMAL turn whose changelings (2, one of them dead) outnumber
its living players (1): the state the win condition is supposed to flip to
ChangelingVictory. -/
def rW : RoomState :=
  { turn := 1, real_turn := 4, turn_owner_index := 0,
    turn_state := toString GameState.NORMAL.value, users_voted := none,
    users := ["aa", "bb", "cc"], changelings := ["aa", "bb"],
    user_votes := [],
    roles := fun u => if u = "aa" then PlayerState.CHANGELING else PlayerState.DEAD }

/-- Room at turn 5 (a special round) with five living players, one
changeling, and leftovers of an earlier voting round: `users_voted = 3` and
a stale tally for "aa". -/
def rP : RoomState :=
  { turn := 5, real_turn := 6, turn_owner_index := 2,
    turn_state := toString GameState.NORMAL.value, users_voted := some 3,
    users := ["aa", "bb", "cc", "dd", "ee"], changelings := ["aa"],
    user_votes := [("aa", 2)],
    roles := fun u => if u = "aa" then PlayerState.CHANGELING else PlayerState.CAMPER }

/-- Room at turn 1 (an ordinary turn, no winner by the spec's condition):
one living changeling among two living players. -/
def rN : RoomState :=
  { turn := 1, real_turn := 7, turn_owner_index := 2,
    turn_state := toString GameState.NORMAL.value, users_voted := none,
    users := ["aa", "bb"], changelings := ["aa"],
    user_votes := [],
    roles := fun u => if u = "aa" then PlayerState.CHANGELING else PlayerState.CAMPER }

/-- Room in a voting round in which both (living) players have voted:
`users_voted` equals the living count, 2. -/
def rV : RoomState :=
  { turn := 5, real_turn := 6, turn_owner_index := 0,
    turn_state := toString GameState.BURN_CAMPER.value, users_voted := some 2,
    users := ["aa", "bb"], changelings := ["aa"],
    user_votes := [("aa", 1), ("bb", 1)],
    roles := fun u => if u = "aa" then PlayerState.CHANGELING else PlayerState.CAMPER }

/-- Room whose turn_state is the CamperVictory terminal tag. -/
def rT : RoomState :=
  { turn := 41, real_turn := 50, turn_owner_index := 1,
    turn_state := toString GameState.CAMPER_VICTORY.value, users_voted := none,
    users := ["aa", "bb"], changelings := [],
    user_votes := [],
    roles := fun u => if u = "aa" then PlayerState.CAMPER else PlayerState.DEAD }

/-- Lobby room of three unassigned players, about to get roles. -/
def rA : RoomState :=
  { turn := 0, real_turn := 0, turn_owner_index := 0,
    turn_state := toString GameState.LOBBY.value, users_voted := none,
    users := ["aa", "bb", "cc"], changelings := [],
    user_votes := [],
    roles := fun _ => PlayerState.UNASSIGNED }

/-- Voting round whose tallies are 3, 5, 5: "bb" and "cc" tie for the
maximum and "bb" is the first maximal entry. -/
def rTV : RoomState :=
  { rV with users := ["aa", "bb", "cc"],
            user_votes := [("aa", 3), ("bb", 5), ("cc", 5)] }

/-- Voting round whose tallies are 10 and 9: "aa" holds the strictly
highest tally, but as decimal strings "10" < "9". -/
def rTX : RoomState :=
  { rV with user_votes := [("aa", 10), ("bb", 9)] }

/-- Room satisfying `changelings ⊆ users`, used to exercise the
list-modifying operations. -/
def rSub : RoomState :=
  { turn := 2, real_turn := 2, turn_owner_index := 1,
    turn_state := toString GameState.NORMAL.value, users_voted := none,
    users := ["aa", "bb"], changelings := ["aa"],
    user_votes := [],
    roles := fun u => if u = "aa" then PlayerState.CHANGELING else PlayerState.CAMPER }

/-- Fresh voting round (all tallies zero, `users_voted` just created at 0). -/
def rCV : RoomState :=
  { rV with users_voted := some 0, user_votes := [("aa", 0), ("bb", 0)] }

/-- Store with a room at its player cap (5 users) and no record yet for the
user id "ff" that is about to ask to join. -/
def stF : ServerStore :=
  { userRecords := ["aa", "bb", "cc", "dd", "ee"], roomExists := true,
    room := { rP with turn_state := toString GameState.LOBBY.value } }

/-- Room.get_winner always raises: `number_of_living` is an absent field, so
the very first comparison is `int > None`. -/
theorem Room.get_winner_raises (s : RoomState) :
    Room.get_winner s = Except.error PyErr.typeError := rfl

/-- Room.next_turn on any state: `real_turn` is incremented, the TypeError
from get_winner propagates, and every other field is left as it was. -/
theorem Room.next_turn_frame (s : RoomState) (progress : Bool) :
    Room.next_turn s progress =
      ({ s with real_turn := s.real_turn + 1 }, Except.error PyErr.typeError) := rfl

/-- The head of one stable-descending insertion is the champion step applied
to the previous head. -/
theorem head?_insertDescBy (key : α → String) (x : α) (l : List α) :
    (insertDescBy key x l).head? = champStep key l.head? x := by
  cases l with
  | nil => rfl
  | cons y ys =>
    cases h : pyStrLt (key y) (key x) <;> simp [insertDescBy, champStep, h]

/-- The head of the stable descending sort is the first element attaining
the maximal key. -/
theorem pySortDescBy_head? (key : α → String) (l : List α) :
    (pySortDescBy key l).head? = champS key l := by
  induction l using List.reverseRecOn with
  | nil => rfl
  | append_singleton l x ih =>
    rw [pySortDescBy, List.foldl_append, champS, List.foldl_append]
    simp only [List.foldl_cons, List.foldl_nil]
    rw [head?_insertDescBy]
    rw [show List.foldl (fun acc x => insertDescBy key x acc) [] l = pySortDescBy key l from rfl]
    rw [ih]
    rfl

/-- For single-digit numbers the Python string comparison of their decimal
representations agrees with the numeric comparison. -/
theorem pyStrLt_repr_digits :
    ∀ a ≤ 9, ∀ b ≤ 9, pyStrLt (Nat.repr a) (Nat.repr b) = decide (a < b) := by decide

/-- Scanning the stringified tallies left to right keeps exactly the
numeric champion, as long as every tally is a single digit. -/
theorem foldl_champStep_map (vs : List (String × Nat)) :
    ∀ c : String × Nat, c.2 ≤ 9 → (∀ kv ∈ vs, kv.2 ≤ 9) →
    List.foldl (champStep (fun kv : String × String => kv.2))
      (some (c.1, Nat.repr c.2)) (vs.map (fun kv => (kv.1, Nat.repr kv.2)))
    = some ((champNats c vs).1, Nat.repr (champNats c vs).2) := by
  induction vs with
  | nil => intro c _ _; rfl
  | cons x xs ih =>
    intro c hc h9
    have hx : x.2 ≤ 9 := h9 x (by simp)
    have hxs : ∀ kv ∈ xs, kv.2 ≤ 9 := fun kv hkv => h9 kv (by simp [hkv])
    have hstep : champStep (fun kv : String × String => kv.2)
        (some (c.1, Nat.repr c.2)) (x.1, Nat.repr x.2)
        = some ((if c.2 < x.2 then x else c).1,
                Nat.repr (if c.2 < x.2 then x else c).2) := by
      by_cases hlt : c.2 < x.2 <;>
        simp [champStep, pyStrLt_repr_digits c.2 hc x.2 hx, hlt]
    rw [List.map_cons, List.foldl_cons, hstep, champNats]
    have hc' : (if c.2 < x.2 then x else c).2 ≤ 9 := by
      split
      · exact hx
      · exact hc
    exact ih _ hc' hxs

/-- The champion of `c :: vs` is `c` when nothing in `vs` beats it, and
otherwise the first maximal entry of `vs`. -/
theorem champNats_first_max :
    ∀ (vs : List (String × Nat)) (c : String × Nat),
    some (champNats c vs).1 =
      if vs.all (fun kv2 => kv2.2 ≤ c.2) then some c.1 else specFirstMax vs := by
  intro vs
  induction vs with
  | nil => intro c; simp [champNats]
  | cons x xs ih =>
    intro c
    rw [champNats]
    by_cases hcx : c.2 < x.2
    · rw [if_pos hcx, ih x, List.all_cons]
      have hxc : (decide (x.2 ≤ c.2)) = false := decide_eq_false (by omega)
      rw [hxc, Bool.false_and, specFirstMax]
      simp
    · rw [if_neg hcx, ih c, List.all_cons]
      have hxc : (decide (x.2 ≤ c.2)) = true := decide_eq_true (by omega)
      rw [hxc, Bool.true_and]
      by_cases hall : (xs.all fun kv2 => decide (kv2.2 ≤ c.2)) = true
      · rw [if_pos hall, if_pos hall]
      · rw [if_neg hall, if_neg hall]
        have hallf : (xs.all fun kv2 => decide (kv2.2 ≤ c.2)) = false := by
          revert hall
          cases xs.all fun kv2 => decide (kv2.2 ≤ c.2) <;> simp
        have hallx : (xs.all fun kv2 => decide (kv2.2 ≤ x.2)) = false := by
          rw [List.all_eq_false] at hallf ⊢
          obtain ⟨kv, hkv, hgt⟩ := hallf
          refine ⟨kv, hkv, ?_⟩
          simp only [decide_eq_true_eq] at hgt ⊢
          omega
        rw [specFirstMax, hallx]
        simp

/-- Incrementing the `t` entries of an association list does not move the
first match for `t`. -/
theorem find?_map_incr_self (t : String) :
    ∀ h : List (String × Nat),
    (h.map fun kv => if kv.1 == t then (kv.1, kv.2 + 1) else kv).find?
        (fun kv => kv.1 == t)
    = (h.find? (fun kv => kv.1 == t)).map (fun kv => (kv.1, kv.2 + 1)) := by
  intro h
  induction h with
  | nil => rfl
  | cons kv h ih =>
    simp only [List.map_cons]
    by_cases hkv : kv.1 = t
    · rw [if_pos (by simp [hkv])]
      rw [List.find?_cons_of_pos _ (by simp [hkv]),
          List.find?_cons_of_pos _ (by simp [hkv])]
      simp
    · rw [if_neg (by simp [hkv])]
      rw [List.find?_cons_of_neg _ (by simp [hkv]),
          List.find?_cons_of_neg _ (by simp [hkv])]
      exact ih

/-- Incrementing the `t` entries of an association list leaves the first
match for any other key `k` untouched. -/
theorem find?_map_incr_other (t k : String) (hk : k ≠ t) :
    ∀ h : List (String × Nat),
    (h.map fun kv => if kv.1 == t then (kv.1, kv.2 + 1) else kv).find?
        (fun kv => kv.1 == k)
    = h.find? (fun kv => kv.1 == k) := by
  intro h
  induction h with
  | nil => rfl
  | cons kv h ih =>
    simp only [List.map_cons]
    by_cases hkv : kv.1 = k
    · have hkvt : ¬kv.1 = t := by
        rw [hkv]
        exact hk
      rw [if_neg (by simp [hkvt])]
      rw [List.find?_cons_of_pos _ (by simp [hkv]),
          List.find?_cons_of_pos _ (by simp [hkv])]
    · by_cases hkvt : kv.1 = t
      · rw [if_pos (by simp [hkvt])]
        rw [List.find?_cons_of_neg _ (by simp [hkv]),
            List.find?_cons_of_neg _ (by simp [hkv])]
        exact ih
      · rw [if_neg (by simp [hkvt])]
        rw [List.find?_cons_of_neg _ (by simp [hkv]),
            List.find?_cons_of_neg _ (by simp [hkv])]
        exact ih

/-- `cast_vote`'s hincrby bumps the target's visible tally by exactly 1. -/
theorem lookupTally_hincrby_self (h : List (String × Nat)) (t : String) :
    lookupTally (hincrby h t) t = lookupTally h t + 1 := by
  unfold hincrby
  cases hany : h.any (fun kv => kv.1 == t)
  · rw [if_neg (by simp [hany])]
    have hnone : h.find? (fun kv => kv.1 == t) = none := by
      rw [List.find?_eq_none]
      intro x hx
      exact fun hpx => by simp [List.any_eq_false.mp hany x hx hpx]
    unfold lookupTally
    rw [List.find?_append, hnone]
    simp
  · rw [if_pos (by simp [hany])]
    unfold lookupTally
    rw [find?_map_incr_self]
    have hsome : (h.find? (fun kv => kv.1 == t)).isSome = true := by
      rw [List.find?_isSome]
      exact List.any_eq_true.mp hany
    obtain ⟨kv, hkv⟩ := Option.isSome_iff_exists.mp hsome
    rw [hkv]
    rfl

/-- `cast_vote`'s hincrby leaves every other id's visible tally alone. -/
theorem lookupTally_hincrby_other (h : List (String × Nat)) (t k : String)
    (hk : k ≠ t) :
    lookupTally (hincrby h t) k = lookupTally h k := by
  unfold hincrby
  cases hany : h.any (fun kv => kv.1 == t)
  · rw [if_neg (by simp [hany])]
    unfold lookupTally
    rw [List.find?_append]
    have : List.find? (fun kv => kv.1 == k) [(t, 1)] = none := by
      simp [List.find?_cons, beq_eq_false_iff_ne.mpr (Ne.symm hk)]
    rw [this]
    cases h.find? (fun kv => kv.1 == k) <;> rfl
  · rw [if_pos (by simp [hany])]
    unfold lookupTally
    rw [find?_map_incr_other t k hk]

/-- C1: the claim says advanceTurn evaluates the win condition first and,
with more changelings than living players, moves turn_state to
ChangelingVictory.  The code cannot: `get_winner` compares the changeling
count against `self.number_of_living`, a hash field nothing ever writes, so
`int > None` raises TypeError on every call.  At `rW` — changelings (2)
strictly outnumber the living (1) — `next_turn` raises, `turn_state` stays
NORMAL, and only `real_turn` (incremented before the check) changes. -/
theorem Room.next_turn_winner_check_crashes :
    (Room.next_turn rW).2 = Except.error PyErr.typeError
    ∧ (Room.next_turn rW).1.turn_state = toString GameState.NORMAL.value
    ∧ (Room.next_turn rW).1.real_turn = rW.real_turn + 1
    ∧ rW.users.countP (fun u => rW.roles u != PlayerState.DEAD) < rW.changelings.length :=
  ⟨rfl, rfl, rfl, by decide⟩

/-- C2: the claim says a winnerless advanceTurn at `turn % 5 == 0` enters
BurnCamper with a fresh votes map and `users_voted` reset to 0.  At `rP`
(turn 5, no winner by the spec's condition, `users_voted = 3`, a stale
tally) `next_turn` raises TypeError inside the win check, so the BurnCamper
branch is unreachable and nothing is reset; moreover `set_up_voting` itself
zeroes the per-player tallies but never touches `users_voted`. -/
theorem Room.next_turn_special_round_crashes :
    (Room.next_turn rP).2 = Except.error PyErr.typeError
    ∧ (Room.next_turn rP).1.turn_state = toString GameState.NORMAL.value
    ∧ (Room.next_turn rP).1.user_votes = [("aa", 2)]
    ∧ (Room.next_turn rP).1.users_voted = some 3
    ∧ (Room.set_up_voting rP).user_votes =
        [("aa", 0), ("bb", 0), ("cc", 0), ("dd", 0), ("ee", 0)]
    ∧ (Room.set_up_voting rP).users_voted = some 3 :=
  ⟨rfl, rfl, rfl, rfl, rfl, rfl⟩

/-- C3: the claim says an ordinary winnerless advanceTurn increments `turn`
and `turn_owner_index`, sets Normal, and always increments `real_turn`.
At `rN` (turn 1, one living changeling among two living players) the
TypeError from the win check aborts the call before the increment branch:
`turn`, `turn_owner_index` and `turn_state` are unchanged; only the
`real_turn` half of the claim holds, since that increment precedes the
crash. -/
theorem Room.next_turn_normal_advance_crashes :
    (Room.next_turn rN).2 = Except.error PyErr.typeError
    ∧ (Room.next_turn rN).1.turn = rN.turn
    ∧ (Room.next_turn rN).1.turn_owner_index = rN.turn_owner_index
    ∧ (Room.next_turn rN).1.turn_state = rN.turn_state
    ∧ (Room.next_turn rN).1.real_turn = rN.real_turn + 1 :=
  ⟨rfl, rfl, rfl, rfl, rfl⟩

/-- C4: after assign_roles on a room of N ≥ 1 distinct players, the chosen
player's role is Changeling, that player is in both `users` and
`changelings`, every other player's role is Camper, and exactly one entry
of `users` carries the Changeling role. -/
theorem Room.assign_roles_one_changeling (s : RoomState) (i : Nat) (chosen : String)
    (hc : s.users[i]? = some chosen) (hnd : s.users.Nodup) :
    (Room.assign_roles s i).roles chosen = PlayerState.CHANGELING
    ∧ chosen ∈ (Room.assign_roles s i).users
    ∧ chosen ∈ (Room.assign_roles s i).changelings
    ∧ (∀ u ∈ (Room.assign_roles s i).users, u ≠ chosen →
        (Room.assign_roles s i).roles u = PlayerState.CAMPER)
    ∧ (Room.assign_roles s i).users.countP
        (fun u => (Room.assign_roles s i).roles u == PlayerState.CHANGELING) = 1 := by
  have hmem : chosen ∈ s.users := List.getElem?_mem hc
  have hrw : Room.assign_roles s i =
      { s with
        roles := fun u => if u = chosen then PlayerState.CHANGELING
          else if u ∈ s.users then PlayerState.CAMPER else s.roles u,
        changelings := s.changelings ++ [chosen] } := by
    unfold Room.assign_roles
    rw [hc]
  rw [hrw]
  refine ⟨by simp, hmem, List.mem_append_right _ (by simp), ?_, ?_⟩
  · intro u hu hne
    show (if u = chosen then PlayerState.CHANGELING
      else if u ∈ s.users then PlayerState.CAMPER else s.roles u) = PlayerState.CAMPER
    rw [if_neg hne, if_pos hu]
  · have hcong : ∀ u ∈ s.users,
        (((if u = chosen then PlayerState.CHANGELING
          else if u ∈ s.users then PlayerState.CAMPER else s.roles u)
            == PlayerState.CHANGELING) = true) ↔ ((u == chosen) = true) := by
      intro u hu
      by_cases hne : u = chosen
      · simp [hne]
      · rw [if_neg hne, if_pos hu]
        simp [hne]
    show s.users.countP _ = 1
    rw [List.countP_congr hcong]
    exact List.count_eq_one_of_mem hnd hmem

/-- C4 witness: in the three-player lobby `rA`, choosing index 1 makes "bb"
the unique changeling and everyone else a camper. -/
theorem Room.assign_roles_one_changeling_witness :
    (Room.assign_roles rA 1).roles "bb" = PlayerState.CHANGELING
    ∧ "bb" ∈ (Room.assign_roles rA 1).users
    ∧ "bb" ∈ (Room.assign_roles rA 1).changelings
    ∧ (∀ u ∈ (Room.assign_roles rA 1).users, u ≠ "bb" →
        (Room.assign_roles rA 1).roles u = PlayerState.CAMPER)
    ∧ (Room.assign_roles rA 1).users.countP
        (fun u => (Room.assign_roles rA 1).roles u == PlayerState.CHANGELING) = 1 :=
  Room.assign_roles_one_changeling rA 1 "bb" rfl (by decide)

/-- C5 counterexample: `tally_votes` sorts by the *string* value `hgetall`
returned (decode_responses), so with tallies 10 and 9 it returns "bb"
("9" > "10" lexicographically) although "aa" holds the strictly highest
tally — refuting the claim as stated for general vote maps. -/
theorem Room.tally_votes_string_compare_cex :
    Room.tally_votes rTX = some "bb"
    ∧ lookupTally rTX.user_votes "aa" = 10
    ∧ lookupTally rTX.user_votes "bb" = 9 :=
  ⟨rfl, rfl, rfl⟩

/-- C5 (amended): as long as every tally is a single digit — in particular
in any round where each of the at most 5 players votes at most once — the
string comparison agrees with the numeric one, and `tally_votes` on a
non-empty vote map returns the entry with the strictly highest tally,
ties broken by the first maximal entry encountered. -/
theorem Room.tally_votes_first_maximal (s : RoomState) (v : String × Nat)
    (vs : List (String × Nat)) (hv : s.user_votes = v :: vs)
    (h9 : ∀ kv ∈ s.user_votes, kv.2 ≤ 9) :
    Room.tally_votes s = specFirstMax s.user_votes := by
  rw [hv] at h9
  unfold Room.tally_votes Room.get_dict
  rw [hv, pySortDescBy_head?]
  simp only [List.map_cons, champS, List.foldl_cons]
  rw [show champStep (fun kv : String × String => kv.2) none (v.1, Nat.repr v.2)
      = some (v.1, Nat.repr v.2) from rfl]
  rw [foldl_champStep_map vs v (h9 v (by simp)) (fun kv hkv => h9 kv (by simp [hkv]))]
  rw [show Option.map (fun kv : String × String => kv.1)
      (some ((champNats v vs).1, Nat.repr (champNats v vs).2))
      = some (champNats v vs).1 from rfl]
  rw [specFirstMax]
  exact champNats_first_max vs v

/-- C5 witness: on tallies 3, 5, 5 the tied maximum goes to "bb", the first
maximal entry. -/
theorem Room.tally_votes_first_maximal_witness :
    Room.tally_votes rTV = some "bb" :=
  (Room.tally_votes_first_maximal rTV ("aa", 3) [("bb", 5), ("cc", 5)] rfl
    (by decide)).trans (by decide)

/-- C6: the claim says has_all_voted is true iff `users_voted` equals the
living-player count.  The code computes that count into a local variable and
then compares `self.users_voted` against `self.number_of_living`, an absent
hash field read back as None; `int == None` is False, so at `rV` — both of
the 2 living players have voted and `users_voted = 2` — it still returns
False (and it can never return True). -/
theorem Room.has_all_voted_false_when_all_voted :
    Room.has_all_voted rV = Except.ok false
    ∧ rV.users_voted = some (rV.users.countP (fun u => rV.roles u != PlayerState.DEAD)) :=
  ⟨rfl, by decide⟩

/-- C7: once `turn_state` holds a terminal tag (CamperVictory or
ChangelingVictory), no advanceTurn changes `turn`, `turn_owner_index` or
`turn_state`: the call aborts in the win check before any of those fields
is written (only the diagnostic `real_turn` counter moves). -/
theorem Room.next_turn_terminal_unchanged (s : RoomState) (progress : Bool)
    (_hterm : s.turn_state = toString GameState.CAMPER_VICTORY.value
      ∨ s.turn_state = toString GameState.CHANGELING_VICTORY.value) :
    (Room.next_turn s progress).1.turn = s.turn
    ∧ (Room.next_turn s progress).1.turn_owner_index = s.turn_owner_index
    ∧ (Room.next_turn s progress).1.turn_state = s.turn_state := by
  rw [Room.next_turn_frame]
  exact ⟨rfl, rfl, rfl⟩

/-- C7 witness: a CamperVictory room is left with the same turn, owner index
and turn_state by next_turn. -/
theorem Room.next_turn_terminal_unchanged_witness :
    (Room.next_turn rT false).1.turn = rT.turn
    ∧ (Room.next_turn rT false).1.turn_owner_index = rT.turn_owner_index
    ∧ (Room.next_turn rT false).1.turn_state = rT.turn_state :=
  Room.next_turn_terminal_unchanged rT false (Or.inl rfl)

/-- C8 counterexample: `add_changeling` rpushes its argument onto
`changelings` with no membership check against `users`; starting from
`rSub`, which satisfies the subset invariant, adding the non-member "xx"
leaves "xx" in `changelings` but not in `users`. -/
theorem Room.add_changeling_breaks_subset_cex :
    (∀ c ∈ rSub.changelings, c ∈ rSub.users)
    ∧ "xx" ∈ (Room.add_changeling rSub "xx").changelings
    ∧ ((Room.add_changeling rSub "xx").users.contains "xx") = false := by
  decide

/-- C8 (amended): `add_player`, `burn_player` and `assign_roles` preserve
`changelings ⊆ users` unconditionally; `add_changeling` preserves it only
when the added user already belongs to `users`. -/
theorem Room.changelings_subset_preserved (s : RoomState) (u : String) (i : Nat)
    (hsub : ∀ c ∈ s.changelings, c ∈ s.users) :
    (∀ c ∈ (Room.add_player s u).changelings, c ∈ (Room.add_player s u).users)
    ∧ (∀ c ∈ (Room.burn_player s u).changelings, c ∈ (Room.burn_player s u).users)
    ∧ (u ∈ s.users → ∀ c ∈ (Room.add_changeling s u).changelings,
        c ∈ (Room.add_changeling s u).users)
    ∧ (∀ c ∈ (Room.assign_roles s i).changelings, c ∈ (Room.assign_roles s i).users) := by
  refine ⟨?_, ?_, ?_, ?_⟩
  · intro c hc
    exact List.mem_append_left _ (hsub c hc)
  · intro c hc
    have hc' : c ∈ s.changelings := by
      simp only [Room.burn_player] at hc
      split at hc
      · exact (List.mem_filter.mp hc).1
      · exact hc
    have husers : (Room.burn_player s u).users = s.users := by
      simp only [Room.burn_player]
      split <;> rfl
    rw [husers]
    exact hsub c hc'
  · intro hu c hc
    rcases List.mem_append.mp hc with h | h
    · exact hsub c h
    · have : c = u := by simpa using h
      rw [this]
      exact hu
  · intro c hc
    simp only [Room.assign_roles] at hc ⊢
    cases hgi : s.users[i]? with
    | none =>
      rw [hgi] at hc
      exact hsub c hc
    | some chosen =>
      rw [hgi] at hc
      replace hc : c ∈ s.changelings ++ [chosen] := hc
      rcases List.mem_append.mp hc with h | h
      · exact hsub c h
      · have hcc : c = chosen := by simpa using h
        rw [hcc]
        exact List.getElem?_mem hgi

/-- C8 witness: at `rSub` (where the invariant holds) all four operations,
with the added user "bb" ∈ users and choice index 0, preserve the subset
invariant. -/
theorem Room.changelings_subset_preserved_witness :
    (∀ c ∈ (Room.add_player rSub "bb").changelings, c ∈ (Room.add_player rSub "bb").users)
    ∧ (∀ c ∈ (Room.burn_player rSub "bb").changelings, c ∈ (Room.burn_player rSub "bb").users)
    ∧ ("bb" ∈ rSub.users → ∀ c ∈ (Room.add_changeling rSub "bb").changelings,
        c ∈ (Room.add_changeling rSub "bb").users)
    ∧ (∀ c ∈ (Room.assign_roles rSub 0).changelings, c ∈ (Room.assign_roles rSub 0).users) :=
  Room.changelings_subset_preserved rSub "bb" 0 (by decide)

/-- C9 counterexample: `cast_vote` receives only the *target* id — there is
no record of who voted — and increments `users_voted` unconditionally.
Starting from the fresh round `rCV` (`users_voted = 0`), two calls (which
may well come from the same voter) drive `users_voted` to 2 and the
target's tally to 2, so `users_voted` counts vote submissions, not distinct
voters. -/
theorem Room.cast_vote_double_vote_cex :
    rCV.users_voted = some 0
    ∧ (Room.cast_vote (Room.cast_vote rCV "aa") "aa").users_voted = some 2
    ∧ lookupTally (Room.cast_vote (Room.cast_vote rCV "aa") "aa").user_votes "aa" = 2 :=
  ⟨rfl, rfl, rfl⟩

/-- C9 (amended): every cast_vote call increments the target's visible
tally by exactly one (creating it at 1 when absent), leaves every other
tally unchanged, and increments `users_voted` by exactly one,
unconditionally. -/
theorem Room.cast_vote_increments (s : RoomState) (target k : String)
    (hk : k ≠ target) :
    lookupTally (Room.cast_vote s target).user_votes target
        = lookupTally s.user_votes target + 1
    ∧ lookupTally (Room.cast_vote s target).user_votes k = lookupTally s.user_votes k
    ∧ (Room.cast_vote s target).users_voted = some (s.users_voted.getD 0 + 1) :=
  ⟨lookupTally_hincrby_self s.user_votes target,
   lookupTally_hincrby_other s.user_votes target k hk, rfl⟩

/-- C9 witness: at the fresh round `rCV`, voting for "aa" moves its tally
from 0 to 1, leaves "bb" at 0, and moves `users_voted` from 0 to 1. -/
theorem Room.cast_vote_increments_witness :
    lookupTally (Room.cast_vote rCV "aa").user_votes "aa"
        = lookupTally rCV.user_votes "aa" + 1
    ∧ lookupTally (Room.cast_vote rCV "aa").user_votes "bb" = lookupTally rCV.user_votes "bb"
    ∧ (Room.cast_vote rCV "aa").users_voted = some (rCV.users_voted.getD 0 + 1) :=
  Room.cast_vote_increments rCV "aa" "bb" (by decide)

/-- C10 counterexample: joining the full room of `stF` is rejected with
RoomFull and the room is untouched — but visible store state *is* mutated
by the rejected join: the `User(...)` constructor creates the `user:ff`
record before the capacity check runs. -/
theorem join_full_room_creates_user_record_cex :
    (join_game stF "ff").2 = JoinOutcome.roomFull
    ∧ (join_game stF "ff").1.room.users = stF.room.users
    ∧ stF.userRecords.contains "ff" = false
    ∧ (join_game stF "ff").1.userRecords = stF.userRecords ++ ["ff"] :=
  ⟨rfl, rfl, rfl, rfl⟩

/-- C10 (amended): a join against an existing room already at the cap of 5
returns RoomFull and leaves the room — in particular its `users` list —
unchanged; the only store mutation of the rejected join is the
create-if-absent of the joining player's own user record, which precedes
the capacity check. -/
theorem join_full_room_rejected (st : ServerStore) (sid : String)
    (hex : st.roomExists = true) (hfull : MAX_USERS_PER_ROOM ≤ st.room.users.length) :
    (join_game st sid).2 = JoinOutcome.roomFull
    ∧ (join_game st sid).1.room = st.room
    ∧ (join_game st sid).1.userRecords =
        (if sid ∈ st.userRecords then st.userRecords else st.userRecords ++ [sid]) := by
  simp only [join_game]
  by_cases hmem : sid ∈ st.userRecords
  · rw [if_pos hmem, if_neg (by simp [hex]), if_pos hfull]
    exact ⟨rfl, rfl, by rw [if_pos hmem]⟩
  · rw [if_neg hmem, if_neg (by simp [hex]), if_pos (by simpa using hfull)]
    exact ⟨rfl, rfl, by rw [if_neg hmem]⟩

/-- C10 witness: the concrete full room of `stF` rejects "ff" with RoomFull,
keeps its room state, and records the newly created user hash. -/
theorem join_full_room_rejected_witness :
    (join_game stF "ff").2 = JoinOutcome.roomFull
    ∧ (join_game stF "ff").1.room = stF.room
    ∧ (join_game stF "ff").1.userRecords =
        (if "ff" ∈ stF.userRecords then stF.userRecords else stF.userRecords ++ ["ff"]) :=
  join_full_room_rejected stF "ff" rfl (by decide)
